import Mathlib

/-!
Verification of the `TabModel` list-model adapter
(`src/lib/tabwidget/tabmodel.cpp` of the QupZilla browser).

The model mirrors a browser window's tab container as an ordered list and
supports drag-and-drop reordering through a private mime payload.  The C++
class is embedded shallowly:

* `WebTab` models a tab handle with the attribute getters used by
  `TabModel::data`.
* `BrowserWindow` models the window together with its tab container
  (`TabWidget`): the authoritative ordered tab list, queried by
  `weView(index)->webTab()` and `WebTab::tabIndex()`.
* `ModelState` models the `TabModel` instance: the `m_window` pointer
  (`Option BrowserWindow`, `none` = null) and the internal `m_tabs` list.
* Fallible C++ code (null-pointer dereference, out-of-range container
  access, which is an assertion failure / undefined behaviour in Qt) is
  embedded with `Option`: `none` means the call faults.

Signal/slot wiring, painting and the view layer are outside the embedded
program; the structural slots (`tabInserted`, `tabRemoved`, `tabMoved`),
the query functions (`rowCount`, `data`, `tab`), and the drag-and-drop
functions (`mimeData`, `dropMimeData`) are translated line by line.
-/

namespace TabModel

/-- A `WebTab` handle: identity plus the attribute getters used by
`TabModel::data` (`title()`, `icon()`, `isPinned()`, `isRestored()`,
`isCurrentTab()`, `isLoading()`, `isPlaying()`, `isMuted()`).  The icon is
an opaque handle, modelled by a number. -/
structure WebTab where
  tabId : Nat
  title : String
  icon : Nat
  isPinned : Bool
  isRestored : Bool
  isCurrentTab : Bool
  isLoading : Bool
  isPlaying : Bool
  isMuted : Bool
deriving DecidableEq, Repr

/-- The browser window together with its tab container (`TabWidget`):
the authoritative ordered list of tabs.  `weView(i)->webTab()` is
`tabs.get? i` (a null view, hence a fault, when out of range). -/
structure BrowserWindow where
  tabs : List WebTab
deriving DecidableEq, Repr

/-- The `TabModel` state: the `m_window` pointer (null = `none`) and the
internal ordered list `m_tabs`. -/
structure ModelState where
  m_window : Option BrowserWindow
  m_tabs : List WebTab
deriving DecidableEq, Repr

/-- The roles recognised by `TabModel::data`, plus `otherRole` for every
integer role outside the recognised set (the `default` branch of the
switch). -/
inductive Role where
  | webTabRole
  | titleRole
  | displayRole
  | iconRole
  | decorationRole
  | pinnedRole
  | restoredRole
  | currentTabRole
  | loadingRole
  | audioPlayingRole
  | audioMutedRole
  | otherRole (n : Nat)
deriving DecidableEq, Repr

/-- A non-empty `QVariant` value produced by `TabModel::data`.
`TabModel::data` returns `Option TabVariant`, with `none` for the empty
`QVariant()`. -/
inductive TabVariant where
  | tabValue (t : WebTab)
  | stringValue (s : String)
  | iconValue (n : Nat)
  | boolValue (b : Bool)
deriving DecidableEq, Repr

/-- Embeds `QVector::value(i)`: the element at `i`, or the default (here `none`,
the null pointer) when `i` is out of range.  Never faults. -/
def qValue (l : List WebTab) (i : Int) : Option WebTab :=
  if i < 0 then none else l[i.toNat]?

/-- Embeds `TabModel::tab(index)`: `m_tabs.value(index.row())`. -/
def tab (st : ModelState) (row : Int) : Option WebTab :=
  qValue st.m_tabs row

/-- Embeds `TabModel::rowCount(parent)`: 0 for a valid (nested) parent, the
length of `m_tabs` otherwise. -/
def rowCount (st : ModelState) (parentValid : Bool) : Nat :=
  if parentValid then 0 else st.m_tabs.length

/-- Embeds `TabModel::data(index, role)`: the guard `index.row() < 0 ||
index.row() > m_tabs.count()` (note: `>`, as in the source), then the
null-tab check, then the role switch. -/
def data (st : ModelState) (row : Int) (role : Role) : Option TabVariant :=
  if row < 0 ∨ row > (st.m_tabs.length : Int) then
    none
  else
    match tab st row with
    | none => none
    | some t =>
      match role with
      | .webTabRole => some (.tabValue t)
      | .titleRole => some (.stringValue t.title)
      | .displayRole => some (.stringValue t.title)
      | .iconRole => some (.iconValue t.icon)
      | .decorationRole => some (.iconValue t.icon)
      | .pinnedRole => some (.boolValue t.isPinned)
      | .restoredRole => some (.boolValue t.isRestored)
      | .currentTabRole => some (.boolValue t.isCurrentTab)
      | .loadingRole => some (.boolValue t.isLoading)
      | .audioPlayingRole => some (.boolValue t.isPlaying)
      | .audioMutedRole => some (.boolValue t.isMuted)
      | .otherRole _ => none

/-- The splice performed by `TabModel::tabMoved`:
`m_tabs.insert(to, m_tabs.takeAt(from))`.  Identity when `f` is out of
range (`takeAt` would fault there; the slot guards are modelled in
`tabMoved`). -/
def tabMovedList (l : List WebTab) (f t : Nat) : List WebTab :=
  match l[f]? with
  | some x => (l.eraseIdx f).insertIdx t x
  | none => l

/-- The destination row passed to `beginMoveRows` by `TabModel::tabMoved`:
`to > from ? to + 1 : to`. -/
def moveNotifyDest (f t : Int) : Int :=
  if t > f then t + 1 else t

/-- Embeds `TabModel::tabInserted(index)`:
`WebTab *tab = m_window->weView(index)->webTab();` followed by
`m_tabs.insert(index, tab)`.  Faults (`none`) when `m_window` is null
(null dereference), when `weView(index)` is null (out-of-range container
access), or when the insert position is out of range (Qt assertion). -/
def tabInserted (st : ModelState) (index : Int) : Option ModelState :=
  match st.m_window with
  | none => none
  | some w =>
    match qValue w.tabs index with
    | none => none
    | some t =>
      if 0 ≤ index ∧ index.toNat ≤ st.m_tabs.length then
        some { st with m_tabs := st.m_tabs.insertIdx index.toNat t }
      else
        none

/-- Embeds `TabModel::tabRemoved(index)`: `m_tabs.remove(index)`.  Faults
(`none`) when `index` is out of range (Qt assertion). -/
def tabRemoved (st : ModelState) (index : Int) : Option ModelState :=
  if 0 ≤ index ∧ index.toNat < st.m_tabs.length then
    some { st with m_tabs := st.m_tabs.eraseIdx index.toNat }
  else
    none

/-- Embeds `TabModel::tabMoved(from, to)`:
`m_tabs.insert(to, m_tabs.takeAt(from))`.  Faults (`none`) when `from` or
`to` is out of range (Qt assertion in `takeAt` / `insert`). -/
def tabMoved (st : ModelState) (f t : Int) : Option ModelState :=
  if 0 ≤ f ∧ f.toNat < st.m_tabs.length ∧ 0 ≤ t ∧ t.toNat < st.m_tabs.length then
    some { st with m_tabs := tabMovedList st.m_tabs f.toNat t.toNat }
  else
    none

/-- The handler connected to the window's `destroyed` signal in
`TabModel::init`: `m_window = nullptr; m_tabs.clear();` bracketed by a
model reset. -/
def windowDestroyed (_st : ModelState) : ModelState :=
  { m_window := none, m_tabs := [] }

/-- A `QModelIndex` as handed to `TabModel::mimeData`: its row, column
and validity. -/
structure MIdx where
  row : Int
  column : Int
  valid : Bool
deriving DecidableEq, Repr

/-- The serialisation loop of `TabModel::mimeData`: for each index, if it
is valid and has column 0, stream out its row. -/
def mimeDataRows : List MIdx → List Int
  | [] => []
  | ix :: rest =>
    if ix.valid ∧ ix.column = 0 then ix.row :: mimeDataRows rest
    else mimeDataRows rest

/-- A `QMimeData` payload: whether it carries the private
`application/qupzilla.tabmodel.tab` format, and the streamed row indices
(the `QDataStream` integer codec is the toolkit's and round-trips, so the
byte buffer is modelled as the integer list itself). -/
structure MimeData where
  hasTabFormat : Bool
  payload : List Int
deriving DecidableEq, Repr

/-- Embeds `TabModel::mimeData(indexes)`: a payload tagged with the private
format holding the serialised rows. -/
def mimeData (indexes : List MIdx) : MimeData :=
  { hasTabFormat := true, payload := mimeDataRows indexes }

/-- Embeds `QAbstractListModel::index(i)` as used in `dropMimeData`: a valid
index with row `i` when `0 ≤ i < rowCount()`, otherwise the invalid
index (row `-1`). -/
def modelIndexRow (st : ModelState) (i : Int) : Int :=
  if 0 ≤ i ∧ i < (st.m_tabs.length : Int) then i else -1

/-- The decode loop of `TabModel::dropMimeData`: read each streamed row,
resolve it via `tab(index(idx))`, and keep the tabs that resolve. -/
def resolveTabs (st : ModelState) : List Int → List WebTab
  | [] => []
  | i :: rest =>
    match tab st (modelIndexRow st i) with
    | some t => t :: resolveTabs st rest
    | none => resolveTabs st rest

/-- Embeds `WebTab::tabIndex()`: the tab's current row in the tab container
(`-1` when absent, as for `QVector::indexOf`). -/
def tabIndexIn (container : List WebTab) (t : WebTab) : Int :=
  match container.findIdx? (fun x => x == t) with
  | some n => (n : Int)
  | none => -1

/-- Modelled from the spec: `TabWidget::moveTab(from, to)` is not in the
sources (only `tabmodel.cpp` is); the spec describes the tab container as
the authority for tab order, accepting a `moveTab(from,to)` command that
reorders it, with prior moves shifting subsequent rows.  It is modelled
as the list move splice, identity on out-of-range arguments. -/
def moveTab (w : BrowserWindow) (f t : Int) : BrowserWindow :=
  if 0 ≤ f ∧ f.toNat < w.tabs.length ∧ 0 ≤ t ∧ t.toNat < w.tabs.length then
    { tabs := tabMovedList w.tabs f.toNat t.toNat }
  else
    w

/-- The reorder loop of `TabModel::dropMimeData`: for each resolved tab,
`from = tabs.at(i)->tabIndex()` (re-queried against the container), then
`to = row >= from ? row - 1 : row++` (post-increment: `to` gets the old
`row`, then `row` grows by one), then `moveTab(from, to)`.  Returns the
issued `(from, to)` commands and the container after them. -/
def reorderLoop (w : BrowserWindow) (row : Int) :
    List WebTab → List (Int × Int) × BrowserWindow
  | [] => ([], w)
  | tb :: rest =>
    let f := tabIndexIn w.tabs tb
    if row ≥ f then
      let r := reorderLoop (moveTab w f (row - 1)) row rest
      ((f, row - 1) :: r.1, r.2)
    else
      let r := reorderLoop (moveTab w f row) (row + 1) rest
      ((f, row) :: r.1, r.2)

/-- The `Qt::DropAction` values relevant to `dropMimeData`. -/
inductive DropAction where
  | moveAction
  | copyAction
  | ignoreAction
deriving DecidableEq, Repr

/-- The outcome of `TabModel::dropMimeData`: the returned boolean, the
model state afterwards (the container inside `m_window` updated by the
issued moves), and the `moveTab` commands issued to the container. -/
structure DropResult where
  accepted : Bool
  state : ModelState
  commands : List (Int × Int)
deriving DecidableEq, Repr

/-- Embeds `TabModel::dropMimeData(data, action, row, column, parent)`:
`IgnoreAction` is an accepted no-op; a null window, a missing format tag,
a valid (nested) parent, or a non-zero column is rejected; then the
payload is decoded and resolved, an empty resolved list is rejected, and
otherwise the reorder loop issues `moveTab` commands. -/
def dropMimeData (st : ModelState) (mime : MimeData) (action : DropAction)
    (row : Int) (column : Int) (parentValid : Bool) : DropResult :=
  if action = .ignoreAction then
    { accepted := true, state := st, commands := [] }
  else
    match st.m_window with
    | none => { accepted := false, state := st, commands := [] }
    | some w =>
      if ¬mime.hasTabFormat ∨ parentValid ∨ column ≠ 0 then
        { accepted := false, state := st, commands := [] }
      else
        let tabs := resolveTabs st mime.payload
        if tabs = [] then
          { accepted := false, state := st, commands := [] }
        else
          let r := reorderLoop w row tabs
          { accepted := true,
            state := { st with m_window := some r.2 },
            commands := r.1 }

/-- The reorder algorithm as the spec words it, for the refinement claim:
"for each resolved tab handle in payload order, compute its current row
(re-queried each iteration), then issue a move request: destination =
`row - 1` if the drop row is ≥ the tab's current row, else the drop row
itself, with the drop row then incremented by one for the next iteration
in that second case". -/
def specReorderMoves (w : BrowserWindow) (dropRow : Int) :
    List WebTab → List (Int × Int)
  | [] => []
  | tb :: rest =>
    let cur := tabIndexIn w.tabs tb
    if dropRow ≥ cur then
      (cur, dropRow - 1) :: specReorderMoves (moveTab w cur (dropRow - 1)) dropRow rest
    else
      (cur, dropRow) :: specReorderMoves (moveTab w cur dropRow) (dropRow + 1) rest

/-- A structural event of the tab container, carrying the inserted tab's
identity where one is inserted. -/
inductive TabEvent where
  | insertEv (i : Nat) (t : WebTab)
  | removeEv (i : Nat)
  | moveEv (f : Nat) (t : Nat)
deriving DecidableEq, Repr

/-- The reference list semantics of one event: insert-at, remove-at,
move. -/
def refStep (l : List WebTab) : TabEvent → List WebTab
  | .insertEv i t => l.insertIdx i t
  | .removeEv i => l.eraseIdx i
  | .moveEv f t => tabMovedList l f t

/-- The reference list after a sequence of events. -/
def refRun (l : List WebTab) (es : List TabEvent) : List WebTab :=
  es.foldl refStep l

/-- An event is in range for a list of length `n`. -/
def eventInRange (n : Nat) : TabEvent → Bool
  | .insertEv i _ => i ≤ n
  | .removeEv i => i < n
  | .moveEv f t => f < n && t < n

/-- Every event of the sequence is in range of the reference list as it
evolves. -/
def wellFormedSeq : List WebTab → List TabEvent → Bool
  | _, [] => true
  | l, e :: es => eventInRange l.length e && wellFormedSeq (refStep l e) es

/-- One event delivered to the live system: the tab container updates its
authoritative list first, then emits the structural signal, which runs
the model's slot (the slot reads the container, as
`m_window->weView(index)->webTab()` does). -/
def applyEvent (st : ModelState) : TabEvent → Option ModelState
  | .insertEv i t =>
    match st.m_window with
    | none => none
    | some w => tabInserted { st with m_window := some { tabs := w.tabs.insertIdx i t } } (i : Int)
  | .removeEv i =>
    match st.m_window with
    | none => none
    | some w => tabRemoved { st with m_window := some { tabs := w.tabs.eraseIdx i } } (i : Int)
  | .moveEv f t =>
    match st.m_window with
    | none => none
    | some w =>
      tabMoved { st with m_window := some { tabs := tabMovedList w.tabs f t } } (f : Int) (t : Int)

/-- A sequence of events delivered in order; `none` as soon as one
faults. -/
def applyEvents (st : ModelState) : List TabEvent → Option ModelState
  | [] => some st
  | e :: es =>
    match applyEvent st e with
    | some st' => applyEvents st' es
    | none => none

/-- The model state whose window container and internal list both hold
`l` (the in-sync configuration). -/
def syncState (l : List WebTab) : ModelState :=
  { m_window := some { tabs := l }, m_tabs := l }

/-- A concrete tab handle, for concrete instances. -/
def mkTab (n : Nat) : WebTab :=
  { tabId := n, title := "", icon := 0, isPinned := false, isRestored := false,
    isCurrentTab := false, isLoading := false, isPlaying := false, isMuted := false }

/-- A four-tab container `[A, B, C, D]`. -/
def fourTabs : List WebTab := [mkTab 0, mkTab 1, mkTab 2, mkTab 3]

/-- A concrete event sequence exercising all three slots. -/
def c1Events : List TabEvent :=
  [.insertEv 0 (mkTab 0), .insertEv 1 (mkTab 1), .insertEv 0 (mkTab 2),
   .moveEv 0 2, .removeEv 1]

/-! ## Helper lemmas -/

/-- Removing the element found at position `i` and re-consing it is a
permutation of the original list. -/
theorem perm_cons_eraseIdx {α : Type} (l : List α) (i : Nat) (x : α)
    (h : l[i]? = some x) : List.Perm (x :: l.eraseIdx i) l := by
  induction l generalizing i with
  | nil => simp at h
  | cons a t ih =>
    cases i with
    | zero =>
      simp only [List.getElem?_cons_zero] at h
      injection h with h
      subst h
      simp [List.eraseIdx]
    | succ i =>
      simp only [List.getElem?_cons_succ] at h
      have hp := ih i h
      have hs : List.Perm (x :: a :: t.eraseIdx i) (a :: x :: t.eraseIdx i) :=
        List.Perm.swap a x _
      simpa [List.eraseIdx] using hs.trans (List.Perm.cons a hp)

/-- The element inserted by `insertIdx` sits at the insertion position. -/
theorem getElem?_insertIdx_self' {α : Type} (l : List α) (i : Nat) (x : α)
    (h : i ≤ l.length) : (l.insertIdx i x)[i]? = some x := by
  rw [List.getElem?_eq_getElem (by rw [List.length_insertIdx i _ h]; omega)]
  rw [List.getElem_insertIdx_self l x i h]

/-- One in-range event on the in-sync configuration: the slot succeeds
and the configuration stays in sync with the reference step. -/
theorem applyEvent_sync (l : List WebTab) (e : TabEvent)
    (h : eventInRange l.length e = true) :
    applyEvent (syncState l) e = some (syncState (refStep l e)) := by
  cases e with
  | insertEv i t =>
    simp only [eventInRange, decide_eq_true_eq] at h
    have hq : qValue (l.insertIdx i t) (i : Int) = some t := by
      simp only [qValue]
      rw [if_neg (by omega)]
      simp only [Int.toNat_natCast]
      exact getElem?_insertIdx_self' l i t h
    simp only [applyEvent, syncState, tabInserted, refStep, hq, Int.toNat_natCast]
    rw [if_pos ⟨Int.natCast_nonneg i, h⟩]
  | removeEv i =>
    simp only [eventInRange, decide_eq_true_eq] at h
    simp only [applyEvent, syncState, tabRemoved, refStep, Int.toNat_natCast]
    rw [if_pos ⟨Int.natCast_nonneg i, h⟩]
  | moveEv f t =>
    simp only [eventInRange, Bool.and_eq_true, decide_eq_true_eq] at h
    simp only [applyEvent, syncState, tabMoved, refStep, Int.toNat_natCast]
    rw [if_pos ⟨Int.natCast_nonneg f, h.1, Int.natCast_nonneg t, h.2⟩]

/-- A well-formed event sequence on the in-sync configuration succeeds
and lands on the reference run. -/
theorem applyEvents_sync (es : List TabEvent) (l : List WebTab)
    (h : wellFormedSeq l es = true) :
    applyEvents (syncState l) es = some (syncState (refRun l es)) := by
  induction es generalizing l with
  | nil => simp [applyEvents, refRun]
  | cons e es ih =>
    simp only [wellFormedSeq, Bool.and_eq_true] at h
    simp only [applyEvents, applyEvent_sync l e h.1]
    simpa [refRun] using ih (refStep l e) h.2

/-- The move splice with in-range indices keeps the length and permutes
the list. -/
theorem tabMovedList_len_perm (l : List WebTab) (f t : Nat)
    (hf : f < l.length) (ht : t < l.length) :
    (tabMovedList l f t).length = l.length ∧
      List.Perm (tabMovedList l f t) l := by
  obtain ⟨x, hx⟩ : ∃ x, l[f]? = some x := ⟨_, List.getElem?_eq_getElem hf⟩
  have hel : (l.eraseIdx f).length = l.length - 1 := List.length_eraseIdx_of_lt hf
  have htle : t ≤ (l.eraseIdx f).length := by omega
  constructor
  · rw [tabMovedList, hx, List.length_insertIdx t _ htle]
    omega
  · rw [tabMovedList, hx]
    exact (List.perm_insertIdx x _ htle).trans (perm_cons_eraseIdx l f x hx)

/-! ## Claim theorems -/

/-- C1: for every sequence of in-range `tabInserted` / `tabRemoved` /
`tabMoved` events applied to the initially-empty model, the slots all
succeed, and the row count and the tab identity at every row equal those
of a reference list subjected to the same insert-at / remove-at / move
operations. -/
theorem c1_model_mirrors_reference (es : List TabEvent)
    (h : wellFormedSeq [] es = true) :
    ∃ st', applyEvents (syncState []) es = some st' ∧
      rowCount st' false = (refRun [] es).length ∧
      ∀ r : Nat, st'.m_tabs[r]? = (refRun [] es)[r]? := by
  refine ⟨syncState (refRun [] es), applyEvents_sync es [] h, ?_, ?_⟩
  · simp [rowCount, syncState]
  · intro r
    rfl

/-- C1 witness: the mirroring theorem applied to a concrete sequence. -/
theorem c1_model_mirrors_reference_witness :
    wellFormedSeq [] c1Events = true ∧
    ∃ st', applyEvents (syncState []) c1Events = some st' ∧
      rowCount st' false = (refRun [] c1Events).length ∧
      ∀ r : Nat, st'.m_tabs[r]? = (refRun [] c1Events)[r]? :=
  ⟨by decide, c1_model_mirrors_reference c1Events (by decide)⟩

/-- C10: `tabMoved(from, to)` with `from` in range and `to` a valid
insertion position succeeds and preserves the list's length and element
multiset: the new `m_tabs` is a permutation of the old one. -/
theorem c10_tabMoved_permutation (st : ModelState) (f t : Int)
    (hf0 : 0 ≤ f) (hf : f.toNat < st.m_tabs.length)
    (ht0 : 0 ≤ t) (ht : t.toNat < st.m_tabs.length) :
    ∃ st', tabMoved st f t = some st' ∧
      st'.m_tabs.length = st.m_tabs.length ∧
      List.Perm st'.m_tabs st.m_tabs := by
  have hp := tabMovedList_len_perm st.m_tabs f.toNat t.toNat hf ht
  exact ⟨_, by rw [tabMoved, if_pos ⟨hf0, hf, ht0, ht⟩], hp.1, hp.2⟩

/-- C10 witness: the permutation theorem at `[A,B,C,D]`, move(1,3). -/
theorem c10_tabMoved_permutation_witness :
    ((0 : Int) ≤ 1 ∧ (1 : Int).toNat < (syncState fourTabs).m_tabs.length ∧
      (0 : Int) ≤ 3 ∧ (3 : Int).toNat < (syncState fourTabs).m_tabs.length) ∧
    ∃ st', tabMoved (syncState fourTabs) 1 3 = some st' ∧
      st'.m_tabs.length = (syncState fourTabs).m_tabs.length ∧
      List.Perm st'.m_tabs (syncState fourTabs).m_tabs :=
  ⟨⟨by decide, by decide, by decide, by decide⟩,
    c10_tabMoved_permutation (syncState fourTabs) 1 3
      (by decide) (by decide) (by decide) (by decide)⟩

/-- C3 counterexample: on `[A,B,C,D]`, `tabMoved(0,3)` puts the moved tab
`A` at row 3 (the raw `to`), not at row `to − 1 = 2` as the claim states:
row 2 of the result does not hold `A`. -/
theorem c3_counterexample :
    (tabMovedList fourTabs 0 3)[2]? ≠ some (mkTab 0) := by decide

/-- C3 (amended): for `tabMoved(from, to)` with `to > from` and `to` in
range, the destination reported to observers is `to + 1`, the internal
splice removes at `from` and inserts at the raw `to`, and the tab
originally at row `from` appears at row `to` (not `to − 1`) of the
resulting list. -/
theorem c3_tabMoved_forward (st : ModelState) (f t : Int)
    (hf0 : 0 ≤ f) (hlt : f < t) (ht : t.toNat < st.m_tabs.length) :
    moveNotifyDest f t = t + 1 ∧
    ∃ st' x, tabMoved st f t = some st' ∧
      st.m_tabs[f.toNat]? = some x ∧
      st'.m_tabs = (st.m_tabs.eraseIdx f.toNat).insertIdx t.toNat x ∧
      st'.m_tabs[t.toNat]? = some x := by
  have hf : f.toNat < st.m_tabs.length := by omega
  obtain ⟨x, hx⟩ : ∃ x, st.m_tabs[f.toNat]? = some x :=
    ⟨_, List.getElem?_eq_getElem hf⟩
  have hel : (st.m_tabs.eraseIdx f.toNat).length = st.m_tabs.length - 1 :=
    List.length_eraseIdx_of_lt hf
  have htle : t.toNat ≤ (st.m_tabs.eraseIdx f.toNat).length := by omega
  refine ⟨by rw [moveNotifyDest, if_pos hlt],
    { st with m_tabs := tabMovedList st.m_tabs f.toNat t.toNat }, x, ?_, hx, ?_, ?_⟩
  · rw [tabMoved, if_pos ⟨hf0, hf, by omega, ht⟩]
  · simp [tabMovedList, hx]
  · simp only [tabMovedList, hx]
    exact getElem?_insertIdx_self' _ t.toNat x htle

/-- C3 witness: the amended theorem at `[A,B,C,D]`, move(0,3), together
with the concrete outcome `[B,C,D,A]`. -/
theorem c3_tabMoved_forward_witness :
    tabMovedList fourTabs 0 3 = [mkTab 1, mkTab 2, mkTab 3, mkTab 0] ∧
    (moveNotifyDest 0 3 = 3 + 1 ∧
      ∃ st' x, tabMoved (syncState fourTabs) 0 3 = some st' ∧
        (syncState fourTabs).m_tabs[(0 : Int).toNat]? = some x ∧
        st'.m_tabs =
          ((syncState fourTabs).m_tabs.eraseIdx (0 : Int).toNat).insertIdx (3 : Int).toNat x ∧
        st'.m_tabs[(3 : Int).toNat]? = some x) :=
  ⟨by decide,
    c3_tabMoved_forward (syncState fourTabs) 0 3 (by decide) (by decide) (by decide)⟩

/-- C2 counterexample: after the destroyed handler has run, a
`tabInserted(0)` notification dereferences the null window reference: it
faults (returns `none`) instead of being a guarded no-op that leaves the
state unchanged. -/
theorem c2_counterexample :
    tabInserted (windowDestroyed (syncState fourTabs)) 0 = none ∧
    tabInserted (windowDestroyed (syncState fourTabs)) 0 ≠
      some (windowDestroyed (syncState fourTabs)) := by decide

/-- C2 (amended): after the window-destroyed event fires, the model's row
count is 0 and the window reference is null, and `dropMimeData` (the one
place with a null-window guard) rejects any non-ignore drop; but the
structural slots are not guarded: `tabInserted` dereferences the null
window and `tabRemoved` / `tabMoved` access the now-empty list out of
range, so each of them faults instead of being a no-op. -/
theorem c2_after_destroy (st : ModelState) (i f t : Int) (mime : MimeData)
    (row column : Int) (parentValid : Bool) (action : DropAction)
    (ha : action ≠ .ignoreAction) :
    rowCount (windowDestroyed st) false = 0 ∧
    (windowDestroyed st).m_window = none ∧
    tabInserted (windowDestroyed st) i = none ∧
    tabRemoved (windowDestroyed st) i = none ∧
    tabMoved (windowDestroyed st) f t = none ∧
    (dropMimeData (windowDestroyed st) mime action row column parentValid).accepted
      = false := by
  refine ⟨rfl, rfl, rfl, ?_, ?_, ?_⟩
  · simp only [tabRemoved, windowDestroyed, List.length_nil]
    rw [if_neg (by omega)]
  · simp only [tabMoved, windowDestroyed, List.length_nil]
    rw [if_neg (by omega)]
  · simp only [dropMimeData]
    rw [if_neg ha]
    rfl

/-- C9: `dropMimeData` never mutates the internal tab list: for every
payload, action, row, column and parent, `m_tabs` is identical before and
after the call (reordering happens only through the issued `moveTab`
commands, which act on the container). -/
theorem c9_drop_preserves_m_tabs (st : ModelState) (mime : MimeData)
    (action : DropAction) (row column : Int) (parentValid : Bool) :
    (dropMimeData st mime action row column parentValid).state.m_tabs
      = st.m_tabs := by
  rcases st with ⟨win, tl⟩
  cases win with
  | none =>
    simp only [dropMimeData]
    split
    · rfl
    · rfl
  | some w =>
    simp only [dropMimeData]
    split
    · rfl
    · split
      · rfl
      · split
        · rfl
        · rfl

/-- C4: the failure paths of `dropMimeData`: ignore-action is an accepted
no-op; a null window, a missing format tag, a valid (nested) parent or a
non-zero column is rejected; and when no decoded row resolves to a live
tab the drop is rejected with the internal list unchanged. -/
theorem c4_drop_failure_paths (st : ModelState) (mime : MimeData)
    (action : DropAction) (row column : Int) (parentValid : Bool) :
    (action = .ignoreAction →
      dropMimeData st mime action row column parentValid =
        { accepted := true, state := st, commands := [] }) ∧
    (action ≠ .ignoreAction →
      (st.m_window = none ∨ mime.hasTabFormat = false ∨ parentValid = true ∨
        column ≠ 0) →
      (dropMimeData st mime action row column parentValid).accepted = false) ∧
    (action ≠ .ignoreAction → resolveTabs st mime.payload = [] →
      (dropMimeData st mime action row column parentValid).accepted = false ∧
      (dropMimeData st mime action row column parentValid).state.m_tabs
        = st.m_tabs) := by
  refine ⟨?_, ?_, ?_⟩
  · intro ha
    simp only [dropMimeData]
    rw [if_pos ha]
  · intro ha hbad
    rcases st with ⟨win, tl⟩
    cases win with
    | none =>
      simp only [dropMimeData]
      rw [if_neg ha]
    | some w =>
      simp only [dropMimeData]
      rw [if_neg ha]
      rw [if_pos ?_]
      rcases hbad with hb | hb | hb | hb
      · exact absurd hb (by simp)
      · exact Or.inl (by simp [hb])
      · exact Or.inr (Or.inl hb)
      · exact Or.inr (Or.inr hb)
  · intro ha hres
    rcases st with ⟨win, tl⟩
    cases win with
    | none =>
      simp only [dropMimeData]
      rw [if_neg ha]
      exact ⟨rfl, rfl⟩
    | some w =>
      simp only [dropMimeData]
      rw [if_neg ha]
      by_cases hc : ¬mime.hasTabFormat = true ∨ parentValid = true ∨ column ≠ 0
      · rw [if_pos hc]
        exact ⟨rfl, rfl⟩
      · rw [if_neg hc, if_pos hres]
        exact ⟨rfl, rfl⟩

/-- C4 witness: the failure-path theorem at concrete inputs: an
ignore-action drop, a null-window drop, and a drop whose only decoded row
(10) is out of range so nothing resolves. -/
theorem c4_drop_failure_paths_witness :
    (dropMimeData (syncState fourTabs) (mimeData [⟨0, 0, true⟩])
        DropAction.ignoreAction 1 0 false =
      { accepted := true, state := syncState fourTabs, commands := [] }) ∧
    (dropMimeData { m_window := none, m_tabs := fourTabs }
        (mimeData [⟨0, 0, true⟩]) DropAction.moveAction 1 0 false).accepted
      = false ∧
    ((dropMimeData (syncState fourTabs) (mimeData [⟨10, 0, true⟩])
        DropAction.moveAction 1 0 false).accepted = false ∧
      (dropMimeData (syncState fourTabs) (mimeData [⟨10, 0, true⟩])
        DropAction.moveAction 1 0 false).state.m_tabs
        = (syncState fourTabs).m_tabs) :=
  ⟨(c4_drop_failure_paths (syncState fourTabs) (mimeData [⟨0, 0, true⟩])
      DropAction.ignoreAction 1 0 false).1 rfl,
    (c4_drop_failure_paths { m_window := none, m_tabs := fourTabs }
      (mimeData [⟨0, 0, true⟩]) DropAction.moveAction 1 0 false).2.1
      (by decide) (Or.inl rfl),
    (c4_drop_failure_paths (syncState fourTabs) (mimeData [⟨10, 0, true⟩])
      DropAction.moveAction 1 0 false).2.2 (by decide) (by decide)⟩

/-- The loop of `dropMimeData` issues exactly the commands the spec's
reorder-algorithm sentence describes. -/
theorem reorderLoop_fst_eq_spec (ts : List WebTab) (w : BrowserWindow) (row : Int) :
    (reorderLoop w row ts).1 = specReorderMoves w row ts := by
  induction ts generalizing w row with
  | nil => rfl
  | cons tb rest ih =>
    simp only [reorderLoop, specReorderMoves]
    by_cases h : row ≥ tabIndexIn w.tabs tb
    · rw [if_pos h, if_pos h, ih]
    · rw [if_neg h, if_neg h, ih]

/-- C5: in a successful drop, the move requests issued to the tab
container are exactly those of the spec's reorder algorithm: for each
resolved tab in payload order, the source is the tab's current row
re-queried at that iteration, and the destination is `row − 1` when the
drop row is ≥ that current row, else the drop row itself, the drop row
growing by one in that second case. -/
theorem c5_drop_commands_follow_spec (st : ModelState) (w : BrowserWindow)
    (mime : MimeData) (action : DropAction) (row : Int)
    (hw : st.m_window = some w) (ha : action ≠ .ignoreAction)
    (hf : mime.hasTabFormat = true)
    (hne : resolveTabs st mime.payload ≠ []) :
    (dropMimeData st mime action row 0 false).accepted = true ∧
    (dropMimeData st mime action row 0 false).commands =
      specReorderMoves w row (resolveTabs st mime.payload) := by
  rcases st with ⟨win, tl⟩
  cases win with
  | none => exact absurd hw (by simp)
  | some w' =>
    have hww : w' = w := by
      have := hw
      simp only [Option.some.injEq] at this
      exact this
    subst hww
    simp only [dropMimeData]
    rw [if_neg ha, if_neg (by simp [hf]), if_neg hne]
    exact ⟨rfl, reorderLoop_fst_eq_spec _ w' row⟩

/-- C5 witness: the command theorem at `[A,B,C,D]` with payload rows
`[1, 3]` dropped at row 0. -/
theorem c5_drop_commands_follow_spec_witness :
    ((syncState fourTabs).m_window = some { tabs := fourTabs } ∧
      DropAction.moveAction ≠ DropAction.ignoreAction ∧
      (mimeData [⟨1, 0, true⟩, ⟨3, 0, true⟩]).hasTabFormat = true ∧
      resolveTabs (syncState fourTabs)
        (mimeData [⟨1, 0, true⟩, ⟨3, 0, true⟩]).payload ≠ []) ∧
    ((dropMimeData (syncState fourTabs) (mimeData [⟨1, 0, true⟩, ⟨3, 0, true⟩])
        DropAction.moveAction 0 0 false).accepted = true ∧
      (dropMimeData (syncState fourTabs) (mimeData [⟨1, 0, true⟩, ⟨3, 0, true⟩])
        DropAction.moveAction 0 0 false).commands =
        specReorderMoves { tabs := fourTabs } 0
          (resolveTabs (syncState fourTabs)
            (mimeData [⟨1, 0, true⟩, ⟨3, 0, true⟩]).payload)) :=
  ⟨⟨rfl, by decide, rfl, by decide⟩,
    c5_drop_commands_follow_spec (syncState fourTabs) { tabs := fourTabs }
      (mimeData [⟨1, 0, true⟩, ⟨3, 0, true⟩]) DropAction.moveAction 0
      rfl (by decide) rfl (by decide)⟩

/-- All-valid column-0 indexes serialise to exactly their rows. -/
theorem mimeDataRows_of_valid (ixs : List MIdx)
    (h : ∀ ix ∈ ixs, ix.valid = true ∧ ix.column = 0) :
    mimeDataRows ixs = ixs.map MIdx.row := by
  induction ixs with
  | nil => rfl
  | cons ix rest ih =>
    have hix := h ix (List.mem_cons_self ix rest)
    simp only [mimeDataRows, List.map_cons]
    rw [if_pos hix, ih (fun a ha => h a (List.mem_cons_of_mem ix ha))]

/-- An in-range row resolves to the tab stored at that row. -/
theorem resolve_one (st : ModelState) (i : Int) (h0 : 0 ≤ i)
    (h1 : i < (st.m_tabs.length : Int)) :
    ∃ x, tab st (modelIndexRow st i) = some x ∧ st.m_tabs[i.toNat]? = some x := by
  have hn : i.toNat < st.m_tabs.length := by omega
  obtain ⟨x, hx⟩ : ∃ x, st.m_tabs[i.toNat]? = some x :=
    ⟨_, List.getElem?_eq_getElem hn⟩
  have hmr : modelIndexRow st i = i := by
    simp only [modelIndexRow]
    rw [if_pos ⟨h0, h1⟩]
  refine ⟨x, ?_, hx⟩
  rw [hmr]
  simp only [tab, qValue]
  rw [if_neg (by omega)]
  exact hx

/-- With every row in range, nothing is skipped while resolving. -/
theorem resolveTabs_length_of_inrange (st : ModelState) (rows : List Int)
    (h : ∀ i ∈ rows, 0 ≤ i ∧ i < (st.m_tabs.length : Int)) :
    (resolveTabs st rows).length = rows.length := by
  induction rows with
  | nil => rfl
  | cons i rest ih =>
    obtain ⟨x, hx, _⟩ := resolve_one st i (h i (List.mem_cons_self i rest)).1
      (h i (List.mem_cons_self i rest)).2
    simp only [resolveTabs]
    rw [hx]
    simp only [List.length_cons]
    rw [ih (fun a ha => h a (List.mem_cons_of_mem i ha))]

/-- With every row in range, the `k`-th resolved tab is the tab stored at
the `k`-th encoded row. -/
theorem resolveTabs_get_of_inrange (st : ModelState) (rows : List Int)
    (h : ∀ i ∈ rows, 0 ≤ i ∧ i < (st.m_tabs.length : Int)) :
    ∀ k : Nat, ∀ r : Int, rows[k]? = some r →
      (resolveTabs st rows)[k]? = st.m_tabs[r.toNat]? := by
  induction rows with
  | nil =>
    intro k r hk
    simp at hk
  | cons i rest ih =>
    intro k r hk
    obtain ⟨x, hx, hx2⟩ := resolve_one st i (h i (List.mem_cons_self i rest)).1
      (h i (List.mem_cons_self i rest)).2
    simp only [resolveTabs]
    rw [hx]
    cases k with
    | zero =>
      simp only [List.getElem?_cons_zero] at hk
      injection hk with hk
      subst hk
      simp only [List.getElem?_cons_zero]
      exact hx2.symm
    | succ k =>
      simp only [List.getElem?_cons_succ] at hk
      simp only [List.getElem?_cons_succ]
      exact ih (fun a ha => h a (List.mem_cons_of_mem i ha)) k r hk

/-- C6: encode/decode round trip: for a selection of valid column-0
indexes with in-range rows, the payload built by `mimeData` is exactly
the row sequence in selection order, carries the private format tag, and
decoding it in `dropMimeData` resolves every row in the same order to the
tab at that row. -/
theorem c6_mime_roundtrip (st : ModelState) (ixs : List MIdx)
    (h : ∀ ix ∈ ixs, ix.valid = true ∧ ix.column = 0 ∧
      0 ≤ ix.row ∧ ix.row < (st.m_tabs.length : Int)) :
    (mimeData ixs).hasTabFormat = true ∧
    (mimeData ixs).payload = ixs.map MIdx.row ∧
    (resolveTabs st (mimeData ixs).payload).length = ixs.length ∧
    ∀ k : Nat, ∀ r : Int, (ixs.map MIdx.row)[k]? = some r →
      (resolveTabs st (mimeData ixs).payload)[k]? = st.m_tabs[r.toNat]? := by
  have hrows : ∀ i ∈ ixs.map MIdx.row, 0 ≤ i ∧ i < (st.m_tabs.length : Int) := by
    intro i hi
    obtain ⟨ix, hmem, rfl⟩ := List.mem_map.mp hi
    exact ⟨(h ix hmem).2.2.1, (h ix hmem).2.2.2⟩
  have hpay : (mimeData ixs).payload = ixs.map MIdx.row :=
    mimeDataRows_of_valid ixs (fun ix hix => ⟨(h ix hix).1, (h ix hix).2.1⟩)
  refine ⟨rfl, hpay, ?_, ?_⟩
  · rw [hpay, resolveTabs_length_of_inrange st _ hrows, List.length_map]
  · intro k r hk
    rw [hpay]
    exact resolveTabs_get_of_inrange st _ hrows k r hk

/-- C6 witness: the round-trip theorem for rows `[2, 0, 3]` on the
four-tab model. -/
theorem c6_mime_roundtrip_witness :
    (mimeData [⟨2, 0, true⟩, ⟨0, 0, true⟩, ⟨3, 0, true⟩]).payload = [2, 0, 3] ∧
    ((mimeData [⟨2, 0, true⟩, ⟨0, 0, true⟩, ⟨3, 0, true⟩]).hasTabFormat = true ∧
      (mimeData [⟨2, 0, true⟩, ⟨0, 0, true⟩, ⟨3, 0, true⟩]).payload =
        ([⟨2, 0, true⟩, ⟨0, 0, true⟩, ⟨3, 0, true⟩] : List MIdx).map MIdx.row ∧
      (resolveTabs (syncState fourTabs)
        (mimeData [⟨2, 0, true⟩, ⟨0, 0, true⟩, ⟨3, 0, true⟩]).payload).length =
        ([⟨2, 0, true⟩, ⟨0, 0, true⟩, ⟨3, 0, true⟩] : List MIdx).length ∧
      ∀ k : Nat, ∀ r : Int,
        (([⟨2, 0, true⟩, ⟨0, 0, true⟩, ⟨3, 0, true⟩] : List MIdx).map MIdx.row)[k]?
          = some r →
        (resolveTabs (syncState fourTabs)
          (mimeData [⟨2, 0, true⟩, ⟨0, 0, true⟩, ⟨3, 0, true⟩]).payload)[k]? =
          (syncState fourTabs).m_tabs[r.toNat]?) :=
  ⟨by decide,
    c6_mime_roundtrip (syncState fourTabs)
      [⟨2, 0, true⟩, ⟨0, 0, true⟩, ⟨3, 0, true⟩] (by decide)⟩

/-- C7: a field query on an out-of-range row (negative or ≥ the list
length) or with an unrecognised role returns the empty variant (`none`),
never a fault. -/
theorem c7_data_no_value (st : ModelState) (row : Int) (role : Role)
    (h : row < 0 ∨ (st.m_tabs.length : Int) ≤ row ∨ ∃ n, role = Role.otherRole n) :
    data st row role = none := by
  rcases h with h | h | ⟨n, rfl⟩
  · simp only [data]
    rw [if_pos (Or.inl h)]
  · by_cases hgt : row > (st.m_tabs.length : Int)
    · simp only [data]
      rw [if_pos (Or.inr hgt)]
    · have htab : tab st row = none := by
        simp only [tab, qValue]
        rw [if_neg (by omega)]
        exact List.getElem?_eq_none (by omega)
      simp only [data]
      rw [if_neg (by omega), htab]
  · simp only [data]
    split
    · rfl
    · cases htab : tab st row with
      | none => rfl
      | some t => rfl

/-- C7 witness: the no-value theorem at row 7 (out of range) of the
four-tab model with a recognised role. -/
theorem c7_data_no_value_witness :
    ((7 : Int) < 0 ∨ (((syncState fourTabs).m_tabs.length : Nat) : Int) ≤ 7 ∨
      ∃ n, Role.titleRole = Role.otherRole n) ∧
    data (syncState fourTabs) 7 Role.titleRole = none :=
  ⟨Or.inr (Or.inl (by decide)),
    c7_data_no_value (syncState fourTabs) 7 Role.titleRole
      (Or.inr (Or.inl (by decide)))⟩

/-- C8: the payload built by `mimeData` is exactly the rows of the valid
column-0 indexes, in input order; other indexes are skipped. -/
theorem c8_mimeData_filter (ixs : List MIdx) :
    (mimeData ixs).payload =
      (ixs.filter (fun ix => ix.valid && ix.column == 0)).map MIdx.row := by
  show mimeDataRows ixs = _
  induction ixs with
  | nil => rfl
  | cons ix rest ih =>
    by_cases h : ix.valid = true ∧ ix.column = 0
    · rw [mimeDataRows, if_pos h, List.filter_cons_of_pos (by simpa using h),
        List.map_cons, ih]
    · rw [mimeDataRows, if_neg h, List.filter_cons_of_neg (by simpa using h), ih]

/-- C2 witness: the amended theorem at a concrete destroyed state and a
move-action drop. -/
theorem c2_after_destroy_witness :
    (DropAction.moveAction ≠ DropAction.ignoreAction) ∧
    (rowCount (windowDestroyed (syncState fourTabs)) false = 0 ∧
      (windowDestroyed (syncState fourTabs)).m_window = none ∧
      tabInserted (windowDestroyed (syncState fourTabs)) 0 = none ∧
      tabRemoved (windowDestroyed (syncState fourTabs)) 0 = none ∧
      tabMoved (windowDestroyed (syncState fourTabs)) 0 1 = none ∧
      (dropMimeData (windowDestroyed (syncState fourTabs))
        (mimeData [⟨0, 0, true⟩]) DropAction.moveAction 0 0 false).accepted = false) :=
  ⟨by decide,
    c2_after_destroy (syncState fourTabs) 0 0 1 (mimeData [⟨0, 0, true⟩])
      0 0 false DropAction.moveAction (by decide)⟩

end TabModel
